import Mathlib

set_option linter.unusedVariables false

/-
A shallow embedding of the Hostdreambackend server (src/server.js): the
verifyToken middleware, the login route, and the product CRUD routes,
together with proofs of the behavioral properties stated in the design
document. External collaborators (the document store, bcrypt, jwt, the
media backend) are modelled as explicit parameters or event traces.
-/

namespace HostDream

/-- A decoded credential payload: the subject id and the isAdmin claim, as
signed by the login route and decoded by the verifyToken middleware. -/
structure TokenPayload where
  userId : Nat
  isAdmin : Bool
  deriving DecidableEq, Repr

/-- A stored admin account (UserSchema): email, stored password hash, and
the isAdmin flag (default true in the schema). -/
structure User where
  id : Nat
  email : String
  password : String
  isAdmin : Bool
  deriving DecidableEq, Repr

/-- A product record (ProductSchema). cloudinaryId is the media deletion
key; imageUrl and cloudinaryId are nullable. -/
structure Product where
  id : Nat
  name : String
  category : String
  subCategory : Option String
  description : Option String
  imageUrl : Option String
  cloudinaryId : Option String
  featured : Bool
  deriving DecidableEq, Repr

/-- The product collection together with the id the store assigns next. -/
structure StoreState where
  products : List Product
  nextId : Nat
  deriving DecidableEq, Repr

/-- The empty store at startup. -/
def st0 : StoreState := { products := [], nextId := 0 }

/-- JS truthiness of an optional string header or body field: undefined and
the empty string are falsy, every other string truthy. -/
def jsFalsy : Option String → Bool
  | none => true
  | some s => s == ""

/-- The uploaded file as the handler sees it (req.file): path carries the
cloud URL, filename the cloud public id or the generated local filename. -/
structure UploadedFile where
  path : String
  filename : String
  deriving DecidableEq, Repr

/-- Calls observable at the media-backend and store boundaries, in order. -/
inductive Event where
  | mediaDestroy (key : String)
  | dbRemove (id : Nat)
  deriving DecidableEq, Repr

/-- Response bodies, as far as the claims distinguish them. -/
inductive Body where
  | errMsg
  | createdMsg (p : Product)
  | productOpt (p : Option Product)
  | productList (ps : List Product)
  | deletedMsg
  deriving DecidableEq, Repr

/-- A handler outcome: HTTP status, response body, store state after the
request, and the trace of media/store calls the handler issued. -/
structure HResult where
  status : Nat
  body : Body
  state : StoreState
  trace : List Event
  deriving DecidableEq, Repr

/-- token.split on a single space, as in the middleware: group characters
between space separators, keeping empty groups. -/
def splitChars (cs : List Char) : List (List Char) :=
  match cs with
  | [] => [[]]
  | c :: rest =>
    let r := splitChars rest
    if c == ' ' then [] :: r
    else
      match r with
      | [] => [[c]]
      | g :: gs => (c :: g) :: gs

/-- The second space-separated part of the Authorization header value,
mirroring token.split at index 1; none when the header has no second part
(jwt.verify then throws on undefined). -/
def bearerPart (h : String) : Option String :=
  ((splitChars h.toList).map (fun cs => String.mk cs))[1]?

/-- The verifyToken middleware: a missing or empty header is rejected with
403; otherwise the second space-separated part of the header is verified,
any failure giving 401; on success the decoded payload is attached. The
verify parameter abstracts jwt.verify against the process secret: some
means validly signed and unexpired. -/
def verifyToken (verify : String → Option TokenPayload)
    (authHeader : Option String) : Except Nat TokenPayload :=
  if jsFalsy authHeader then .error 403
  else
    match bearerPart (authHeader.getD "") with
    | none => .error 401
    | some t =>
      match verify t with
      | none => .error 401
      | some decoded => .ok decoded

/-- The login outcome: 400 account-not-found, 400 bad-password, or 200 with
the signed token payload and the account record. -/
inductive LoginResp where
  | adminNotFound
  | incorrectPassword
  | ok (token : TokenPayload) (user : User)
  deriving DecidableEq, Repr

/-- The HTTP status of each login outcome. -/
def loginStatus : LoginResp → Nat
  | .adminNotFound => 400
  | .incorrectPassword => 400
  | .ok _ _ => 200

/-- POST login: find the account by exact email; 400 when absent;
bcrypt.compare the plaintext against the stored hash; 400 when it does not
match; otherwise sign a token carrying the account id and isAdmin set to
the literal true. bcryptCompare abstracts the slow salted comparison. -/
def login (users : List User) (bcryptCompare : String → String → Bool)
    (email pw : String) : LoginResp :=
  match users.find? (fun u => u.email == email) with
  | none => .adminNotFound
  | some admin =>
    if !(bcryptCompare pw admin.password) then .incorrectPassword
    else .ok { userId := admin.id, isAdmin := true } admin

/-- Product.findById: the first record with the given id. -/
def findById (st : StoreState) (pid : Nat) : Option Product :=
  st.products.find? (fun p => p.id == pid)

/-- Product.findByIdAndUpdate: rewrite the first record carrying the id. -/
def updateFirstById (ps : List Product) (pid : Nat) (f : Product → Product) :
    List Product :=
  match ps with
  | [] => []
  | p :: rest => if p.id == pid then f p :: rest else p :: updateFirstById rest pid f

/-- Product.findByIdAndDelete: drop the first record carrying the id. -/
def removeFirstById (ps : List Product) (pid : Nat) : List Product :=
  match ps with
  | [] => []
  | p :: rest => if p.id == pid then rest else p :: removeFirstById rest pid

/-- The body fields the create route reads (absent fields are undefined). -/
structure CreateBody where
  name : Option String
  category : Option String
  subCategory : Option String
  description : Option String
  deriving DecidableEq, Repr

/-- The body fields the update route reads (absent fields are undefined and
are stripped before the store update). -/
structure UpdateBody where
  name : Option String
  category : Option String
  subCategory : Option String
  description : Option String
  deriving DecidableEq, Repr

/-- POST products: verifyToken, then the admin-role check (403), then the
required-field check on name and category (400), then the image fields are
taken from req.file according to the static cloud flag — the cloud path
sets both the URL and the deletion key, the local path sets only the URL —
and the record is persisted and returned with status 201. -/
def createProduct (cloudCfg : Bool) (verify : String → Option TokenPayload)
    (authHeader : Option String) (body : CreateBody)
    (file : Option UploadedFile) (st : StoreState) : HResult :=
  match verifyToken verify authHeader with
  | .error s => { status := s, body := .errMsg, state := st, trace := [] }
  | .ok user =>
    if !user.isAdmin then { status := 403, body := .errMsg, state := st, trace := [] }
    else if jsFalsy body.name || jsFalsy body.category then
      { status := 400, body := .errMsg, state := st, trace := [] }
    else
      let imagePair : Option String × Option String :=
        match file with
        | none => (none, none)
        | some f =>
          if cloudCfg then (some f.path, some f.filename)
          else (some ("/uploads/" ++ f.filename), none)
      let newProduct : Product :=
        { id := st.nextId
          name := body.name.getD ""
          category := body.category.getD ""
          subCategory := body.subCategory
          description := body.description
          imageUrl := imagePair.1
          cloudinaryId := imagePair.2
          featured := false }
      { status := 201, body := .createdMsg newProduct
        state := { products := st.products ++ [newProduct], nextId := st.nextId + 1 }
        trace := [] }

/-- PUT products: verifyToken, admin check, find the record (404 when
absent); when a new file arrives the old cloud image is destroyed
best-effort (cloud backend configured and a key stored) and the image
fields are recomputed — the local path keeps the stored deletion key —
otherwise the stored image fields are kept; then the store update rewrites
the record, absent body fields leaving the stored values, and the updated
record is returned. -/
def updateProduct (cloudCfg : Bool) (verify : String → Option TokenPayload)
    (authHeader : Option String) (pid : Nat) (body : UpdateBody)
    (file : Option UploadedFile) (st : StoreState) : HResult :=
  match verifyToken verify authHeader with
  | .error s => { status := s, body := .errMsg, state := st, trace := [] }
  | .ok user =>
    if !user.isAdmin then { status := 403, body := .errMsg, state := st, trace := [] }
    else
      match findById st pid with
      | none => { status := 404, body := .errMsg, state := st, trace := [] }
      | some product =>
        let destroys : List Event :=
          match file with
          | none => []
          | some _ =>
            match product.cloudinaryId with
            | some oldKey => if cloudCfg then [.mediaDestroy oldKey] else []
            | none => []
        let imagePair : Option String × Option String :=
          match file with
          | none => (product.imageUrl, product.cloudinaryId)
          | some f =>
            if cloudCfg then (some f.path, some f.filename)
            else (some ("/uploads/" ++ f.filename), product.cloudinaryId)
        let applyFields : Product → Product := fun q =>
          { q with
            name := body.name.getD q.name
            category := body.category.getD q.category
            subCategory := match body.subCategory with
              | some s => some s
              | none => q.subCategory
            description := match body.description with
              | some s => some s
              | none => q.description
            imageUrl := imagePair.1
            cloudinaryId := imagePair.2 }
        { status := 200, body := .productOpt (some (applyFields product))
          state := { st with products := updateFirstById st.products pid applyFields }
          trace := destroys }

/-- DELETE products: verifyToken, admin check, find the record (404 when
absent); when the cloud backend is configured and a deletion key is stored,
one best-effort destroy call is issued (its success destroyOk is swallowed);
then the record is removed and a confirmation returned. -/
def deleteProduct (cloudCfg : Bool) (verify : String → Option TokenPayload)
    (authHeader : Option String) (pid : Nat) (destroyOk : Bool)
    (st : StoreState) : HResult :=
  match verifyToken verify authHeader with
  | .error s => { status := s, body := .errMsg, state := st, trace := [] }
  | .ok user =>
    if !user.isAdmin then { status := 403, body := .errMsg, state := st, trace := [] }
    else
      match findById st pid with
      | none => { status := 404, body := .errMsg, state := st, trace := [] }
      | some product =>
        let destroys : List Event :=
          match product.cloudinaryId with
          | some key => if cloudCfg then [.mediaDestroy key] else []
          | none => []
        { status := 200, body := .deletedMsg
          state := { st with products := removeFirstById st.products pid }
          trace := destroys ++ [.dbRemove pid] }

/-- PATCH products: verifyToken, admin check, then a store update on the
featured field alone: a missing id yields a 200 with a null body (no
existence check), an absent featured value leaves the record unchanged. -/
def patchFeatured (verify : String → Option TokenPayload)
    (authHeader : Option String) (pid : Nat) (featured : Option Bool)
    (st : StoreState) : HResult :=
  match verifyToken verify authHeader with
  | .error s => { status := s, body := .errMsg, state := st, trace := [] }
  | .ok user =>
    if !user.isAdmin then { status := 403, body := .errMsg, state := st, trace := [] }
    else
      match findById st pid with
      | none => { status := 200, body := .productOpt none, state := st, trace := [] }
      | some product =>
        let applyFields : Product → Product := fun q =>
          match featured with
          | some b => { q with featured := b }
          | none => q
        { status := 200, body := .productOpt (some (applyFields product))
          state := { st with products := updateFirstById st.products pid applyFields }
          trace := [] }

/-- The numeric value of a run of decimal digits. -/
def digitsVal (ds : List Char) : Nat :=
  ds.foldl (fun a c => a * 10 + (c.toNat - 48)) 0

/-- Number.parseInt on a decimal string: skip leading whitespace, read an
optional sign, then the longest run of leading digits; none models NaN. -/
def parseIntJS (s : String) : Option Int :=
  let cs := s.toList.dropWhile (fun c => c == ' ' || c == '\t' || c == '\n' || c == '\r')
  let signed : Bool × List Char :=
    match cs with
    | '-' :: rest => (true, rest)
    | '+' :: rest => (false, rest)
    | _ => (false, cs)
  let ds := signed.2.takeWhile Char.isDigit
  if ds.isEmpty then none
  else some (if signed.1 then -(digitsVal ds : Int) else (digitsVal ds : Int))

/-- The parsed limit of the list route: an absent or empty query value is
falsy and means 0; otherwise Number.parseInt (none for NaN). -/
def limitOf (q : Option String) : Option Int :=
  match q with
  | none => some 0
  | some s => if s == "" then some 0 else parseIntJS s

/-- GET products: all records, capped to the first limit records exactly
when the parsed limit is greater than 0 (a NaN comparison is false). -/
def getProducts (q : Option String) (st : StoreState) : HResult :=
  let products :=
    match limitOf q with
    | some n => if 0 < n then st.products.take n.toNat else st.products
    | none => st.products
  { status := 200, body := .productList products, state := st, trace := [] }

/-- One request against the mutating routes, carrying the static cloud
flag, the Authorization header, the jwt.verify outcome for the presented
token, and the route inputs. -/
inductive Op where
  | createOp (cloudCfg : Bool) (auth : Option String) (vres : Option TokenPayload)
      (body : CreateBody) (file : Option UploadedFile)
  | updateOp (cloudCfg : Bool) (auth : Option String) (vres : Option TokenPayload)
      (pid : Nat) (body : UpdateBody) (file : Option UploadedFile)
  | patchOp (auth : Option String) (vres : Option TokenPayload)
      (pid : Nat) (featured : Option Bool)
  | deleteOp (cloudCfg : Bool) (auth : Option String) (vres : Option TokenPayload)
      (pid : Nat) (destroyOk : Bool)
  deriving DecidableEq, Repr

/-- The store state after one request. -/
def applyOp (st : StoreState) : Op → StoreState
  | .createOp cloudCfg auth vres body file =>
    (createProduct cloudCfg (fun _ => vres) auth body file st).state
  | .updateOp cloudCfg auth vres pid body file =>
    (updateProduct cloudCfg (fun _ => vres) auth pid body file st).state
  | .patchOp auth vres pid featured =>
    (patchFeatured (fun _ => vres) auth pid featured st).state
  | .deleteOp cloudCfg auth vres pid destroyOk =>
    (deleteProduct cloudCfg (fun _ => vres) auth pid destroyOk st).state

/-- The store state after a sequence of requests. -/
def applyOps (st : StoreState) : List Op → StoreState
  | [] => st
  | op :: rest => applyOps (applyOp st op) rest

/-- A store state is reachable when some request sequence produces it from
the empty store. -/
def reachable (st : StoreState) : Prop :=
  ∃ ops : List Op, applyOps st0 ops = st

/-- Every product holding a media deletion key also holds an image URL. -/
def mediaKeyHasImage (st : StoreState) : Prop :=
  ∀ p ∈ st.products, p.cloudinaryId.isSome → p.imageUrl.isSome


/-- A jwt.verify stand-in accepting the single token string g as an admin
credential, used in concrete instantiations. -/
def verifyDemo : String → Option TokenPayload :=
  fun t => if t == "g" then some { userId := 1, isAdmin := true } else none

/-- A concrete stored product carrying a cloud image. -/
def pDemo : Product :=
  { id := 5, name := "sofa", category := "living", subCategory := none,
    description := none, imageUrl := some "http-url", cloudinaryId := some "k5",
    featured := false }

/-- A store holding the one product pDemo. -/
def stDemo : StoreState := { products := [pDemo], nextId := 6 }

/-- A product with the given id and no image. -/
def plainP (i : Nat) : Product :=
  { id := i, name := "p", category := "c", subCategory := none, description := none,
    imageUrl := none, cloudinaryId := none, featured := false }

/-- A store of five products. -/
def stFive : StoreState :=
  { products := [plainP 0, plainP 1, plainP 2, plainP 3, plainP 4], nextId := 5 }

/-- A create request through the local storage path, carrying a file. -/
def localCreateOp : Op :=
  .createOp false (some "Bearer g") (some { userId := 1, isAdmin := true })
    { name := some "chair", category := some "decor", subCategory := none, description := none }
    (some { path := "unused", filename := "img.png" })

theorem mem_updateFirstById {ps : List Product} {pid : Nat} {f : Product → Product}
    {q : Product} (hq : q ∈ updateFirstById ps pid f) :
    q ∈ ps ∨ ∃ r ∈ ps, q = f r := by
  induction ps with
  | nil => simp [updateFirstById] at hq
  | cons a rest ih =>
    simp only [updateFirstById] at hq
    by_cases ha : (a.id == pid) = true
    · rw [if_pos ha] at hq
      rcases List.mem_cons.mp hq with h1 | h1
      · exact Or.inr ⟨a, List.mem_cons_self a rest, h1⟩
      · exact Or.inl (List.mem_cons_of_mem a h1)
    · rw [if_neg ha] at hq
      rcases List.mem_cons.mp hq with h1 | h1
      · exact Or.inl (by rw [h1]; exact List.mem_cons_self a rest)
      · rcases ih h1 with h2 | ⟨r, hr, he⟩
        · exact Or.inl (List.mem_cons_of_mem a h2)
        · exact Or.inr ⟨r, List.mem_cons_of_mem a hr, he⟩

theorem mem_removeFirstById {ps : List Product} {pid : Nat} {q : Product}
    (hq : q ∈ removeFirstById ps pid) : q ∈ ps := by
  induction ps with
  | nil => simp [removeFirstById] at hq
  | cons a rest ih =>
    simp only [removeFirstById] at hq
    by_cases ha : (a.id == pid) = true
    · rw [if_pos ha] at hq; exact List.mem_cons_of_mem a hq
    · rw [if_neg ha] at hq
      rcases List.mem_cons.mp hq with h1 | h1
      · rw [h1]; exact List.mem_cons_self a rest
      · exact List.mem_cons_of_mem a (ih h1)

theorem find?_id_decomp {ps : List Product} {pid : Nat} {p : Product}
    (h : ps.find? (fun q => q.id == pid) = some p) :
    ∃ pre post, ps = pre ++ p :: post ∧ ∀ q ∈ pre, (q.id == pid) = false := by
  induction ps with
  | nil => simp at h
  | cons a rest ih =>
    rw [List.find?_cons] at h
    cases ha : a.id == pid with
    | true =>
      rw [ha] at h
      obtain rfl : a = p := by injection h
      exact ⟨[], rest, rfl, by simp⟩
    | false =>
      rw [ha] at h
      obtain ⟨pre, post, hps, hpre⟩ := ih h
      refine ⟨a :: pre, post, by rw [hps]; rfl, ?_⟩
      intro q hqmem
      rcases List.mem_cons.mp hqmem with h1 | h1
      · rw [h1]; exact ha
      · exact hpre q h1

theorem updateFirstById_append (pre : List Product) (p : Product) (post : List Product)
    (pid : Nat) (f : Product → Product)
    (hpre : ∀ q ∈ pre, (q.id == pid) = false) (hp : (p.id == pid) = true) :
    updateFirstById (pre ++ p :: post) pid f = pre ++ f p :: post := by
  induction pre with
  | nil => simp [updateFirstById, hp]
  | cons a rest ih =>
    have ha := hpre a (List.mem_cons_self a rest)
    simp only [List.cons_append, updateFirstById, ha, List.append_eq]
    rw [if_neg (by simp [ha])]
    rw [ih (fun q hq => hpre q (List.mem_cons_of_mem a hq))]

theorem removeFirstById_append (pre : List Product) (p : Product) (post : List Product)
    (pid : Nat)
    (hpre : ∀ q ∈ pre, (q.id == pid) = false) (hp : (p.id == pid) = true) :
    removeFirstById (pre ++ p :: post) pid = pre ++ post := by
  induction pre with
  | nil => simp [removeFirstById, hp]
  | cons a rest ih =>
    have ha := hpre a (List.mem_cons_self a rest)
    simp only [List.cons_append, removeFirstById, ha, List.append_eq]
    rw [if_neg (by simp [ha])]
    rw [ih (fun q hq => hpre q (List.mem_cons_of_mem a hq))]

theorem find?_id_append (pre : List Product) (p : Product) (post : List Product)
    (pid : Nat)
    (hpre : ∀ q ∈ pre, (q.id == pid) = false) (hp : (p.id == pid) = true) :
    (pre ++ p :: post).find? (fun q => q.id == pid) = some p := by
  induction pre with
  | nil => rw [List.nil_append, List.find?_cons, hp]
  | cons a rest ih =>
    have ha := hpre a (List.mem_cons_self a rest)
    rw [List.cons_append, List.find?_cons, ha]
    exact ih (fun q hq => hpre q (List.mem_cons_of_mem a hq))


/-- C1: a request to any admin-only route (create, update, delete, toggle
featured) carrying a credential the middleware accepts whose isAdmin claim
is false receives status 403 on every one of the four routes — hence never
401, 404 or 500. -/
theorem C1_nonadmin_always_403 (cloudCfg : Bool) (verify : String → Option TokenPayload)
    (authHeader : Option String) (tok : TokenPayload) (cbody : CreateBody)
    (ubody : UpdateBody) (cfile ufile : Option UploadedFile) (pid : Nat)
    (featured : Option Bool) (destroyOk : Bool) (st : StoreState)
    (hauth : verifyToken verify authHeader = .ok tok) (hadmin : tok.isAdmin = false) :
    (createProduct cloudCfg verify authHeader cbody cfile st).status = 403 ∧
    (updateProduct cloudCfg verify authHeader pid ubody ufile st).status = 403 ∧
    (deleteProduct cloudCfg verify authHeader pid destroyOk st).status = 403 ∧
    (patchFeatured verify authHeader pid featured st).status = 403 := by
  refine ⟨?_, ?_, ?_, ?_⟩ <;>
    simp [createProduct, updateProduct, deleteProduct, patchFeatured, hauth, hadmin]

theorem C1_witness :
    (patchFeatured (fun t => if t == "g" then some ⟨2, false⟩ else none)
      (some "Bearer g") 0 none st0).status = 403 :=
  (C1_nonadmin_always_403 true (fun t => if t == "g" then some ⟨2, false⟩ else none)
    (some "Bearer g") ⟨2, false⟩ ⟨none, none, none, none⟩ ⟨none, none, none, none⟩
    none none 0 none true st0 rfl rfl).2.2.2

/-- C2 counterexample: a protected-route request with no Authorization
header is answered with status 403, not a 401-class status, refuting the
claim that a missing credential yields a 401-class Unauthorized error. -/
theorem C2_counterexample :
    (deleteProduct true (fun _ => none) none 0 true st0).status = 403 ∧
    ¬ (deleteProduct true (fun _ => none) none 0 true st0).status = 401 := by
  constructor
  · rfl
  · intro h; exact absurd h (by decide)

/-- C2 amended: a protected-route request whose Authorization header is
missing (or empty, hence falsy) is rejected with status 403 and the
no-token message on all four admin routes — the code reuses the Forbidden
status for a missing credential instead of a 401-class status. -/
theorem C2_missing_credential_403 (cloudCfg : Bool) (verify : String → Option TokenPayload)
    (authHeader : Option String) (cbody : CreateBody) (ubody : UpdateBody)
    (cfile ufile : Option UploadedFile) (pid : Nat) (featured : Option Bool)
    (destroyOk : Bool) (st : StoreState) (hmiss : jsFalsy authHeader = true) :
    (createProduct cloudCfg verify authHeader cbody cfile st).status = 403 ∧
    (updateProduct cloudCfg verify authHeader pid ubody ufile st).status = 403 ∧
    (deleteProduct cloudCfg verify authHeader pid destroyOk st).status = 403 ∧
    (patchFeatured verify authHeader pid featured st).status = 403 := by
  refine ⟨?_, ?_, ?_, ?_⟩ <;>
    simp [createProduct, updateProduct, deleteProduct, patchFeatured, verifyToken, hmiss]

theorem C2_witness :
    (createProduct true (fun _ => none) none ⟨none, none, none, none⟩ none st0).status = 403 :=
  (C2_missing_credential_403 true (fun _ => none) none ⟨none, none, none, none⟩
    ⟨none, none, none, none⟩ none none 0 none true st0 rfl).1

/-- C3: login with an unknown email yields the 400 account-not-found
response; login with a known email whose password fails the bcrypt
comparison yields the 400 bad-password response; and the outcome depends on
the plaintext password only through the bcrypt comparison, never through
plain string equality with the stored hash. -/
theorem C3_login_errors (users : List User) (bcryptCompare : String → String → Bool)
    (email pw : String) :
    (users.find? (fun u => u.email == email) = none →
      login users bcryptCompare email pw = .adminNotFound ∧
      loginStatus (login users bcryptCompare email pw) = 400) ∧
    (∀ u, users.find? (fun u2 => u2.email == email) = some u →
      bcryptCompare pw u.password = false →
      login users bcryptCompare email pw = .incorrectPassword ∧
      loginStatus (login users bcryptCompare email pw) = 400) ∧
    (∀ cmp2 : String → String → Bool,
      (∀ h, bcryptCompare pw h = cmp2 pw h) →
      login users bcryptCompare email pw = login users cmp2 email pw) := by
  refine ⟨?_, ?_, ?_⟩
  · intro h; simp [login, h, loginStatus]
  · intro u hu hc; simp [login, hu, hc, loginStatus]
  · intro cmp2 hagree
    cases hfind : users.find? (fun u => u.email == email) with
    | none => simp [login, hfind]
    | some admin => simp [login, hfind, hagree admin.password]

theorem C3_witness :
    login [{ id := 1, email := "a@b.c", password := "HASH", isAdmin := false }]
      (fun _ _ => false) "a@b.c" "HASH" = .incorrectPassword :=
  ((C3_login_errors [{ id := 1, email := "a@b.c", password := "HASH", isAdmin := false }]
    (fun _ _ => false) "a@b.c" "HASH").2.1
    { id := 1, email := "a@b.c", password := "HASH", isAdmin := false } (by decide) rfl).1

/-- C4: an admin create request missing name or category (absent or empty)
gets status 400 and leaves the store untouched; with both present the
request gets status 201, exactly one new record is appended carrying
featured false and the next store id, and the response body carries that
record. -/
theorem C4_create_validation (cloudCfg : Bool) (verify : String → Option TokenPayload)
    (authHeader : Option String) (tok : TokenPayload) (body : CreateBody)
    (file : Option UploadedFile) (st : StoreState)
    (hauth : verifyToken verify authHeader = .ok tok) (hadmin : tok.isAdmin = true) :
    ((jsFalsy body.name || jsFalsy body.category) = true →
      (createProduct cloudCfg verify authHeader body file st).status = 400 ∧
      (createProduct cloudCfg verify authHeader body file st).state = st) ∧
    ((jsFalsy body.name || jsFalsy body.category) = false →
      ∃ newP : Product,
        (createProduct cloudCfg verify authHeader body file st).status = 201 ∧
        (createProduct cloudCfg verify authHeader body file st).state.products
          = st.products ++ [newP] ∧
        newP.featured = false ∧ newP.id = st.nextId ∧
        (createProduct cloudCfg verify authHeader body file st).body = .createdMsg newP) := by
  constructor
  · intro hval
    constructor <;> simp [createProduct, hauth, hadmin, hval]
  · intro hval
    simp only [createProduct, hauth, hadmin, Bool.not_true, Bool.false_eq_true, if_false, hval]
    exact ⟨_, trivial, rfl, rfl, rfl, rfl⟩

theorem C4_witness :
    ∃ newP : Product,
      (createProduct true (fun t => if t == "g" then some ⟨1, true⟩ else none)
        (some "Bearer g") ⟨some "chair", some "decor", none, none⟩ none st0).status = 201 ∧
      (createProduct true (fun t => if t == "g" then some ⟨1, true⟩ else none)
        (some "Bearer g") ⟨some "chair", some "decor", none, none⟩ none st0).state.products
        = st0.products ++ [newP] ∧
      newP.featured = false ∧ newP.id = st0.nextId ∧
      (createProduct true (fun t => if t == "g" then some ⟨1, true⟩ else none)
        (some "Bearer g") ⟨some "chair", some "decor", none, none⟩ none st0).body
        = .createdMsg newP :=
  (C4_create_validation true (fun t => if t == "g" then some ⟨1, true⟩ else none)
    (some "Bearer g") ⟨1, true⟩ ⟨some "chair", some "decor", none, none⟩ none st0
    rfl rfl).2 rfl


/-- C5: deleting an existing product as an authenticated admin removes
exactly that record and returns 200 whether or not the media destroy call
succeeds; when the cloud backend is configured and the product stores a
deletion key, the call trace holds exactly one media destroy call, with
that key, placed before the record removal; when no deletion key is stored
no destroy call is issued. -/
theorem C5_delete_media_calls (cloudCfg : Bool) (verify : String → Option TokenPayload)
    (authHeader : Option String) (tok : TokenPayload) (pid : Nat) (destroyOk : Bool)
    (st : StoreState) (p : Product)
    (hauth : verifyToken verify authHeader = .ok tok) (hadmin : tok.isAdmin = true)
    (hfind : findById st pid = some p) :
    (deleteProduct cloudCfg verify authHeader pid destroyOk st).status = 200 ∧
    (∃ pre post, st.products = pre ++ p :: post ∧
      (deleteProduct cloudCfg verify authHeader pid destroyOk st).state.products
        = pre ++ post) ∧
    (∀ key, p.cloudinaryId = some key → cloudCfg = true →
      (deleteProduct cloudCfg verify authHeader pid destroyOk st).trace
        = [.mediaDestroy key, .dbRemove pid]) ∧
    (p.cloudinaryId = none →
      (deleteProduct cloudCfg verify authHeader pid destroyOk st).trace
        = [.dbRemove pid]) ∧
    deleteProduct cloudCfg verify authHeader pid true st
      = deleteProduct cloudCfg verify authHeader pid false st := by
  have hfind2 : st.products.find? (fun q => q.id == pid) = some p := hfind
  have hp : (p.id == pid) = true := by simpa using List.find?_some hfind2
  obtain ⟨pre, post, hps, hpre⟩ := find?_id_decomp hfind2
  refine ⟨?_, ⟨pre, post, hps, ?_⟩, ?_, ?_, rfl⟩
  · simp [deleteProduct, hauth, hadmin, hfind]
  · simp only [deleteProduct, hauth, hadmin, hfind]
    simp only [Bool.not_true, Bool.false_eq_true, if_false]
    rw [hps, removeFirstById_append pre p post pid hpre hp]
  · intro key hk hcfg
    simp [deleteProduct, hauth, hadmin, hfind, hk, hcfg]
  · intro hk
    simp [deleteProduct, hauth, hadmin, hfind, hk]

/-- C6: toggling featured on an existing product as an authenticated admin
returns 200 with the post-update record, changes only that record and only
its featured field, leaves every other product in place, and toggling twice
in succession restores the product collection exactly. -/
theorem C6_toggle_featured (verify : String → Option TokenPayload)
    (authHeader : Option String) (tok : TokenPayload) (pid : Nat)
    (st : StoreState) (p : Product)
    (hauth : verifyToken verify authHeader = .ok tok) (hadmin : tok.isAdmin = true)
    (hfind : findById st pid = some p) :
    (patchFeatured verify authHeader pid (some (!p.featured)) st).status = 200 ∧
    (patchFeatured verify authHeader pid (some (!p.featured)) st).body
      = .productOpt (some { p with featured := !p.featured }) ∧
    (∃ pre post, st.products = pre ++ p :: post ∧
      (∀ q ∈ pre, (q.id == pid) = false) ∧
      (patchFeatured verify authHeader pid (some (!p.featured)) st).state.products
        = pre ++ { p with featured := !p.featured } :: post) ∧
    (patchFeatured verify authHeader pid (some (!(!p.featured)))
        (patchFeatured verify authHeader pid (some (!p.featured)) st).state).state.products
      = st.products := by
  have hfind2 : st.products.find? (fun q => q.id == pid) = some p := hfind
  have hp : (p.id == pid) = true := by simpa using List.find?_some hfind2
  obtain ⟨pre, post, hps, hpre⟩ := find?_id_decomp hfind2
  have hstate1 : (patchFeatured verify authHeader pid (some (!p.featured)) st).state.products
      = pre ++ { p with featured := !p.featured } :: post := by
    simp only [patchFeatured, hauth, hadmin, Bool.not_true, Bool.false_eq_true, if_false, hfind]
    rw [hps, updateFirstById_append pre p post pid _ hpre hp]
  refine ⟨?_, ?_, ⟨pre, post, hps, hpre, hstate1⟩, ?_⟩
  · simp [patchFeatured, hauth, hadmin, hfind]
  · simp [patchFeatured, hauth, hadmin, hfind]
  · have hp1 : (({ p with featured := !p.featured } : Product).id == pid) = true := hp
    have hfind3 : findById (patchFeatured verify authHeader pid (some (!p.featured)) st).state pid
        = some { p with featured := !p.featured } := by
      show (patchFeatured verify authHeader pid (some (!p.featured)) st).state.products.find?
        (fun q => q.id == pid) = some { p with featured := !p.featured }
      rw [hstate1]
      exact find?_id_append pre _ post pid hpre hp1
    generalize hst1 : (patchFeatured verify authHeader pid (some (!p.featured)) st).state = st1
      at hstate1 hfind3 ⊢
    simp only [patchFeatured, hauth, hadmin, Bool.not_true, Bool.false_eq_true, if_false, hfind3]
    rw [hstate1, updateFirstById_append pre { p with featured := !p.featured } post pid _ hpre hp1]
    simp [Bool.not_not, hps]

/-- C7: the list route returns exactly the first limit records (hence
min limit total many) when the parsed limit is positive, and the full
collection when the limit query value is absent, non-positive, or not a
number. -/
theorem C7_list_limit (q : Option String) (st : StoreState) :
    (∀ n : Int, limitOf q = some n → 0 < n →
      (getProducts q st).body = .productList (st.products.take n.toNat) ∧
      (st.products.take n.toNat).length = min n.toNat st.products.length) ∧
    (∀ n : Int, limitOf q = some n → n ≤ 0 →
      (getProducts q st).body = .productList st.products) ∧
    (limitOf q = none → (getProducts q st).body = .productList st.products) ∧
    (q = none → (getProducts q st).body = .productList st.products) := by
  refine ⟨?_, ?_, ?_, ?_⟩
  · intro n hn hpos
    refine ⟨?_, ?_⟩
    · simp [getProducts, hn, hpos]
    · simp [List.length_take]
  · intro n hn hnpos
    have hneg : ¬ (0 < n) := by omega
    simp [getProducts, hn, hneg]
  · intro hn
    simp [getProducts, hn]
  · intro hq
    subst hq
    simp [getProducts, limitOf]

/-- C10: a toggle-featured request by an authenticated admin naming an
absent product id succeeds with 200 and a null body and leaves the store
unchanged, while the update and delete routes answer 404 on the same id:
the existence check they perform is absent from the toggle route. -/
theorem C10_patch_missing_id (cloudCfg : Bool) (verify : String → Option TokenPayload)
    (authHeader : Option String) (tok : TokenPayload) (pid : Nat)
    (featured : Option Bool) (ubody : UpdateBody) (ufile : Option UploadedFile)
    (destroyOk : Bool) (st : StoreState)
    (hauth : verifyToken verify authHeader = .ok tok) (hadmin : tok.isAdmin = true)
    (hfind : findById st pid = none) :
    (patchFeatured verify authHeader pid featured st).status = 200 ∧
    (patchFeatured verify authHeader pid featured st).body = .productOpt none ∧
    (patchFeatured verify authHeader pid featured st).state = st ∧
    (updateProduct cloudCfg verify authHeader pid ubody ufile st).status = 404 ∧
    (deleteProduct cloudCfg verify authHeader pid destroyOk st).status = 404 := by
  refine ⟨?_, ?_, ?_, ?_, ?_⟩ <;>
    simp [patchFeatured, updateProduct, deleteProduct, hauth, hadmin, hfind]


theorem createProduct_keeps_keyImage (cloudCfg : Bool)
    (verify : String → Option TokenPayload) (authHeader : Option String)
    (body : CreateBody) (file : Option UploadedFile) (st : StoreState)
    (h : mediaKeyHasImage st) :
    mediaKeyHasImage (createProduct cloudCfg verify authHeader body file st).state := by
  intro q hq
  unfold createProduct at hq
  split at hq
  · exact h q hq
  · split at hq
    · exact h q hq
    · split at hq
      · exact h q hq
      · dsimp only at hq
        rcases List.mem_append.mp hq with hmem | hmem
        · exact h q hmem
        · have hq2 := List.mem_singleton.mp hmem
          subst hq2
          intro hk
          cases file with
          | none => simp at hk
          | some f =>
            cases cloudCfg with
            | true => simp
            | false => simp at hk

theorem updateProduct_keeps_keyImage (cloudCfg : Bool)
    (verify : String → Option TokenPayload) (authHeader : Option String)
    (pid : Nat) (body : UpdateBody) (file : Option UploadedFile) (st : StoreState)
    (h : mediaKeyHasImage st) :
    mediaKeyHasImage (updateProduct cloudCfg verify authHeader pid body file st).state := by
  intro q hq
  unfold updateProduct at hq
  split at hq
  · exact h q hq
  · split at hq
    · exact h q hq
    · split at hq
      · exact h q hq
      · rename_i product hfind
        dsimp only at hq
        rcases mem_updateFirstById hq with hmem | ⟨r, hr, hqr⟩
        · exact h q hmem
        · subst hqr
          intro hk
          have hprod : product ∈ st.products := List.mem_of_find?_eq_some hfind
          cases file with
          | none => exact h product hprod hk
          | some f =>
            cases cloudCfg with
            | true => simp
            | false => simp

theorem patchFeatured_keeps_keyImage (verify : String → Option TokenPayload)
    (authHeader : Option String) (pid : Nat) (featured : Option Bool) (st : StoreState)
    (h : mediaKeyHasImage st) :
    mediaKeyHasImage (patchFeatured verify authHeader pid featured st).state := by
  intro q hq
  unfold patchFeatured at hq
  split at hq
  · exact h q hq
  · split at hq
    · exact h q hq
    · split at hq
      · exact h q hq
      · dsimp only at hq
        rcases mem_updateFirstById hq with hmem | ⟨r, hr, hqr⟩
        · exact h q hmem
        · subst hqr
          intro hk
          cases featured with
          | none => exact h r hr hk
          | some b => exact h r hr hk

theorem deleteProduct_keeps_keyImage (cloudCfg : Bool)
    (verify : String → Option TokenPayload) (authHeader : Option String)
    (pid : Nat) (destroyOk : Bool) (st : StoreState)
    (h : mediaKeyHasImage st) :
    mediaKeyHasImage (deleteProduct cloudCfg verify authHeader pid destroyOk st).state := by
  intro q hq
  unfold deleteProduct at hq
  split at hq
  · exact h q hq
  · split at hq
    · exact h q hq
    · split at hq
      · exact h q hq
      · dsimp only at hq
        exact h q (mem_removeFirstById hq)

theorem applyOp_keeps_keyImage (st : StoreState) (op : Op) (h : mediaKeyHasImage st) :
    mediaKeyHasImage (applyOp st op) := by
  cases op with
  | createOp cloudCfg auth vres body file =>
    exact createProduct_keeps_keyImage cloudCfg _ auth body file st h
  | updateOp cloudCfg auth vres pid body file =>
    exact updateProduct_keeps_keyImage cloudCfg _ auth pid body file st h
  | patchOp auth vres pid featured =>
    exact patchFeatured_keeps_keyImage _ auth pid featured st h
  | deleteOp cloudCfg auth vres pid destroyOk =>
    exact deleteProduct_keeps_keyImage cloudCfg _ auth pid destroyOk st h

theorem applyOps_keeps_keyImage (ops : List Op) (st : StoreState) (h : mediaKeyHasImage st) :
    mediaKeyHasImage (applyOps st ops) := by
  induction ops generalizing st with
  | nil => exact h
  | cons op rest ih => exact ih (applyOp st op) (applyOp_keeps_keyImage st op h)

/-- C8 counterexample: a single create through the local storage path
reaches a store whose only product carries an image URL and no media
deletion key, refuting the both-present-or-both-absent claim. -/
theorem C8_counterexample :
    reachable (applyOps st0 [localCreateOp]) ∧
    (applyOps st0 [localCreateOp]).products.any
      (fun p => p.imageUrl.isSome && p.cloudinaryId.isNone) = true :=
  ⟨⟨[localCreateOp], rfl⟩, by decide⟩

/-- C8 amended: in every store state reachable through create, update,
toggle and delete requests, a product holding a media deletion key also
holds an image URL; the converse fails, since the local storage path stores
an image URL with no deletion key. -/
theorem C8_reachable_key_has_image (st : StoreState) (hreach : reachable st) :
    mediaKeyHasImage st := by
  obtain ⟨ops, hops⟩ := hreach
  rw [← hops]
  exact applyOps_keeps_keyImage ops st0 (by intro p hp; simp [st0] at hp)

theorem C8_witness : mediaKeyHasImage (applyOps st0 [localCreateOp]) :=
  C8_reachable_key_has_image (applyOps st0 [localCreateOp]) ⟨[localCreateOp], rfl⟩

/-- C9: a successful login issues a token whose isAdmin claim is the
literal true — independent of the stored isAdmin flag and of the request —
and a request presenting that token passes the admin role check of the
toggle route (status 200, never 403). -/
theorem C9_token_always_admin (users : List User) (bcryptCompare : String → String → Bool)
    (email pw : String) (u : User)
    (hfind : users.find? (fun x => x.email == email) = some u)
    (hcmp : bcryptCompare pw u.password = true) :
    login users bcryptCompare email pw = .ok { userId := u.id, isAdmin := true } u ∧
    (∀ st pid featured,
      (patchFeatured (fun _ => some { userId := u.id, isAdmin := true })
        (some "Bearer t") pid featured st).status = 200) := by
  constructor
  · simp [login, hfind, hcmp]
  · intro st pid featured
    have hv : verifyToken (fun _ => some { userId := u.id, isAdmin := true })
        (some "Bearer t") = .ok { userId := u.id, isAdmin := true } := rfl
    simp only [patchFeatured, hv]
    cases hf : findById st pid <;> simp

theorem C9_witness :
    login [{ id := 7, email := "a@b.c", password := "HASH", isAdmin := false }]
      (fun p2 h2 => p2 == "pw" && h2 == "HASH") "a@b.c" "pw"
      = .ok { userId := 7, isAdmin := true }
          { id := 7, email := "a@b.c", password := "HASH", isAdmin := false } :=
  (C9_token_always_admin [{ id := 7, email := "a@b.c", password := "HASH", isAdmin := false }]
    (fun p2 h2 => p2 == "pw" && h2 == "HASH") "a@b.c" "pw"
    { id := 7, email := "a@b.c", password := "HASH", isAdmin := false }
    (by decide) rfl).1

theorem C5_witness :
    (deleteProduct true verifyDemo (some "Bearer g") 5 true stDemo).trace
      = [.mediaDestroy "k5", .dbRemove 5] :=
  (C5_delete_media_calls true verifyDemo (some "Bearer g") { userId := 1, isAdmin := true }
    5 true stDemo pDemo rfl rfl (by decide)).2.2.1 "k5" rfl rfl

theorem C6_witness :
    (patchFeatured verifyDemo (some "Bearer g") 5 (some (!(!pDemo.featured)))
        (patchFeatured verifyDemo (some "Bearer g") 5 (some (!pDemo.featured)) stDemo).state).state.products
      = stDemo.products :=
  (C6_toggle_featured verifyDemo (some "Bearer g") { userId := 1, isAdmin := true } 5 stDemo
    pDemo rfl rfl (by decide)).2.2.2

theorem C7_witness :
    (getProducts (some "2") stFive).body = .productList (stFive.products.take (2 : Int).toNat) :=
  ((C7_list_limit (some "2") stFive).1 2 (by decide) (by decide)).1

theorem C10_witness :
    (patchFeatured verifyDemo (some "Bearer g") 7 (some true) stDemo).status = 200 :=
  (C10_patch_missing_id true verifyDemo (some "Bearer g") { userId := 1, isAdmin := true } 7
    (some true) { name := none, category := none, subCategory := none, description := none }
    none true stDemo rfl rfl (by decide)).1

end HostDream
